import Mathlib

/-!
# Verification of the DL24M electronic-load protocol driver

Shallow embedding of `src/instruments/dl24m.py` (class `DL24M`).

Modelling conventions:
* The serial channel is a `Chan`: `s` is the inbound byte stream (a finite
  prefix of what the device sends, consumed from the front by reads), `pending`
  is the number of stale bytes sitting in the input buffer at the start of a
  poll cycle (what Python sees as `bytes_in_buffer`), and `log` records, in
  order, the command byte of every outbound frame written by `writeFunction`.
* Python bytes are `Nat`s; value objects (`float` / `bool` / `datetime.time`)
  are `PyVal` with rationals standing in for floats (every decode in the source
  is exact decimal arithmetic, so `Rat` is lossless here).
* A Python function that can raise an exception which escapes to its caller is
  modelled with `Option` (`none` = uncaught exception).  `writeFunction`
  catches every exception around its reads and returns `False`, which is the
  `WFRes.failure` constructor; a read from an exhausted stream stands for a
  timeout of `device.read_bytes`.
* The scanning loops of `writeFunction` (lines 235-261) are `scanLoop`,
  written with an iteration-count argument; each iteration consumes at least
  one byte from the stream, so `stream length + 1` iterations are never
  exhausted before a read fails, and the count only makes the recursion
  well-founded.
-/

/-- A Python value as stored in `DL24M.data` or passed to `command`/`setVal`:
`bool`, numeric (int/float, both exact here), or `datetime.time`. -/
inductive PyVal where
  | bool (b : Bool)
  | num (q : ℚ)
  | timeVal (hh mm ss : Nat)
  deriving DecidableEq

/-- Numeric view used by Python `==`: `True == 1`, `False == 0`. -/
def pyNum : PyVal → Option ℚ
  | PyVal.bool b => some (if b then 1 else 0)
  | PyVal.num q => some q
  | PyVal.timeVal _ _ _ => none

/-- Python `==` on the values that occur in the driver: numeric comparison
across `bool`/`int`/`float`, structural comparison of `time` objects,
`False` otherwise. -/
def pyEq (a b : PyVal) : Bool :=
  match pyNum a, pyNum b with
  | some x, some y => decide (x = y)
  | _, _ =>
    match a, b with
    | PyVal.timeVal h1 m1 s1, PyVal.timeVal h2 m2 s2 =>
        decide (h1 = h2) && decide (m1 = m2) && decide (s1 = s2)
    | _, _ => false

/-- The keys of `DL24M.data` (= the keys of `KEY_CMDS`). -/
inductive Key where
  | is_on | voltage | current | time | cap_ah
  | cap_wh | temp | set_current | set_voltage | set_timer
  deriving DecidableEq

/-- `DL24M.KEY_CMDS`: key name to register code. -/
def KEY_CMDS : Key → Nat
  | Key.is_on => 0x10
  | Key.voltage => 0x11
  | Key.current => 0x12
  | Key.time => 0x13
  | Key.cap_ah => 0x14
  | Key.cap_wh => 0x15
  | Key.temp => 0x16
  | Key.set_current => 0x17
  | Key.set_voltage => 0x18
  | Key.set_timer => 0x19

/-- `DL24M.FREQ_VALS`. -/
def FREQ_VALS : List Key :=
  [Key.is_on, Key.voltage, Key.current, Key.time, Key.cap_ah]

/-- `DL24M.AUX_VALS`. -/
def AUX_VALS : List Key :=
  [Key.cap_wh, Key.temp, Key.set_current, Key.set_voltage, Key.set_timer]

/-- `DL24M.MUL`: register code to scale factor (the source stores ints for
`ISON`/`TEMP` and floats elsewhere; the quotient is exact either way). -/
def MUL : List (Nat × ℚ) :=
  [(0x10, 1), (0x11, 1000), (0x12, 1000), (0x14, 1000),
   (0x15, 1000), (0x16, 1), (0x17, 100), (0x18, 100)]

/-- `DL24M.getVal` lines 182-185: `MUL[command]` with a bare `except`
defaulting to `1000.`. -/
def mulOf (command : Nat) : ℚ := (List.lookup command MUL).getD 1000

/-- The `DL24M.data` dictionary. -/
structure DState where
  is_on : PyVal
  voltage : PyVal
  current : PyVal
  time : PyVal
  cap_ah : PyVal
  cap_wh : PyVal
  temp : PyVal
  set_current : PyVal
  set_voltage : PyVal
  set_timer : PyVal
  deriving DecidableEq

def dataGet (k : Key) (st : DState) : PyVal :=
  match k with
  | Key.is_on => st.is_on
  | Key.voltage => st.voltage
  | Key.current => st.current
  | Key.time => st.time
  | Key.cap_ah => st.cap_ah
  | Key.cap_wh => st.cap_wh
  | Key.temp => st.temp
  | Key.set_current => st.set_current
  | Key.set_voltage => st.set_voltage
  | Key.set_timer => st.set_timer

def dataSet (k : Key) (v : PyVal) (st : DState) : DState :=
  match k with
  | Key.is_on => { st with is_on := v }
  | Key.voltage => { st with voltage := v }
  | Key.current => { st with current := v }
  | Key.time => { st with time := v }
  | Key.cap_ah => { st with cap_ah := v }
  | Key.cap_wh => { st with cap_wh := v }
  | Key.temp => { st with temp := v }
  | Key.set_current => { st with set_current := v }
  | Key.set_voltage => { st with set_voltage := v }
  | Key.set_timer => { st with set_timer := v }

/-- The dictionary built in `DL24M.__init__`. -/
def initData : DState :=
  { is_on := PyVal.num 0, voltage := PyVal.num 0, current := PyVal.num 0,
    time := PyVal.timeVal 0 0 0, cap_ah := PyVal.num 0, cap_wh := PyVal.num 0,
    temp := PyVal.num 0, set_current := PyVal.num 0,
    set_voltage := PyVal.num 0, set_timer := PyVal.timeVal 0 0 0 }

/-- Driver-instance state: the data dictionary plus `self.aux_index`. -/
structure Driver where
  data : DState
  auxIndex : Nat
  deriving DecidableEq

def initDriver : Driver := { data := initData, auxIndex := 0 }

/-- The serial channel (see the module docstring). -/
structure Chan where
  s : List Nat
  pending : Nat
  log : List Nat
  deriving DecidableEq

/-- `device.read_bytes n`: `some` of the bytes and the remaining stream, or
`none` when the stream cannot supply `n` bytes (timeout exception). -/
def readBytesS (n : Nat) (s : List Nat) : Option (List Nat × List Nat) :=
  if n ≤ s.length then some (s.take n, s.drop n) else none

/-- Python `bytes.index(v)`: index of the first occurrence, `none` standing
for the `ValueError`. -/
def pyIndex (v : Nat) : List Nat → Option Nat
  | [] => none
  | b :: bs =>
    if b = v then some 0
    else
      match pyIndex v bs with
      | none => none
      | some i => some (i + 1)

/-- The inner `while (bytee[0] != 0xCA): bytee = self.device.read_bytes(1)` of
`writeFunction`: scan forward to the next `0xCA`, one byte per read, `none`
when a read fails. -/
def innerScan (bytee : List Nat) (s : List Nat) : Option (List Nat × List Nat) :=
  if bytee.getD 0 0 = 0xCA then some (bytee, s)
  else
    match s with
    | [] => none
    | b :: rest => innerScan [b] rest

/-- Outcome of the header-seeking loop of `writeFunction`. -/
inductive ScanRes where
  | found (bytee : List Nat) (rest : List Nat)
  | readFail
  | fuelOut
  deriving DecidableEq

def scanFound : ScanRes → Bool
  | ScanRes.found _ _ => true
  | _ => false

/-- The `while (len(bytee) != 2 or bytee[0] != 0xCA or bytee[1] != 0xCB)` loop
of `writeFunction` (it appears verbatim three times, lines 236-242, 245-251
and 254-261, differing only in the initial `bytee`).  One iteration: if the
candidate has length 2, shift the second byte in as the new first byte; scan
forward to a `0xCA` (replacing the candidate with each byte read); append one
more byte; re-test. -/
def scanLoop : Nat → List Nat → List Nat → ScanRes
  | 0, _, _ => ScanRes.fuelOut
  | n + 1, bytee, s =>
    if bytee.length = 2 ∧ bytee.getD 0 0 = 0xCA ∧ bytee.getD 1 0 = 0xCB then
      ScanRes.found bytee s
    else
      match innerScan (if bytee.length = 2 then [bytee.getD 1 0, 0x00] else bytee) s with
      | none => ScanRes.readFail
      | some (b2, s2) =>
        match s2 with
        | [] => ScanRes.readFail
        | c :: s3 => scanLoop n (b2 ++ [c]) s3

/-- Result of `DL24M.writeFunction`: `noResp` is Python `None` (set command,
nothing read back), `frame` is a `bytes` return, `failure` is the `False`
returned by the catch-all `except` around the reads. -/
inductive WFRes where
  | noResp
  | frame (ret : List Nat)
  | failure
  deriving DecidableEq

/-- Record the command byte of an outbound frame in the channel log. -/
def logCmd (command : Nat) (ch : Chan) : Chan :=
  { ch with log := ch.log ++ [command] }

/-- Run one of the header-seeking loops starting from candidate `bytee`, then
`bytes_read = bytee + self.device.read_bytes(6)`. -/
def finishScan (bytee : List Nat) (s : List Nat) (ch : Chan) : WFRes × Chan :=
  match scanLoop (s.length + 1) bytee s with
  | ScanRes.found b2 s2 =>
    match readBytesS 6 s2 with
    | none => (WFRes.failure, { ch with s := s2 })
    | some (six, s3) => (WFRes.frame (b2 ++ six), { ch with s := s3 })
  | _ => (WFRes.failure, { ch with s := s })

/-- `DL24M.writeFunction` (lines 211-268).  The outbound frame
`[0xB1, 0xB2, command, *_value, 0xB6]` is written first (its command byte is
appended to the log); commands `≥ 0x10` then read an 8-byte response,
resynchronizing on the `0xCA 0xCB` header if the first read is not aligned.
All callers in the source pass byte-range-valid command and payload, so the
`bytearray` construction never raises. -/
def writeFunctionS (command : Nat) (_value : List Nat) (ch : Chan) : WFRes × Chan :=
  if command < 0x10 then (WFRes.noResp, logCmd command ch)
  else
    match readBytesS 8 ch.s with
    | none => (WFRes.failure, logCmd command ch)
    | some (b, s1) =>
      if b.getD 0 0 = 0xCA ∧ b.getD 1 0 = 0xCB then
        (WFRes.frame b, { logCmd command ch with s := s1 })
      else
        match pyIndex 0xCA b with
        | some idx =>
          if idx + 1 < 8 then
            if b.getD (idx + 1) 0 = 0xCB then
              match readBytesS (8 - (b.drop idx).length) s1 with
              | none => (WFRes.failure, { logCmd command ch with s := s1 })
              | some (more, s2) =>
                (WFRes.frame (b.drop idx ++ more), { logCmd command ch with s := s2 })
            else finishScan [0x00] s1 (logCmd command ch)
          else finishScan [b.getD idx 0] s1 (logCmd command ch)
        | none => finishScan [0x00] s1 (logCmd command ch)

/-- `DL24M.getVal` (lines 169-195).  `none` is the `ValueError` that
`datetime.time(hh, mm, ss)` raises when a payload byte is out of range for a
time-of-day; every other path returns a value (`PyVal.bool false` is the
Python `False` used as the failure value). -/
def getValS (command : Nat) (ch : Chan) : Option (PyVal × Chan) :=
  match writeFunctionS command [0, 0] ch with
  | (WFRes.failure, ch2) => some (PyVal.bool false, ch2)
  | (WFRes.noResp, ch2) => some (PyVal.bool false, ch2)
  | (WFRes.frame ret, ch2) =>
    if ret.length = 0 then some (PyVal.bool false, ch2)
    else if ret.length = 1 ∧ ret.getD 0 0 = 0x6F then some (PyVal.bool false, ch2)
    else if ret.length < 8 ∨ ret.getD 0 0 ≠ 0xCA ∨ ret.getD 1 0 ≠ 0xCB
        ∨ ret.getD 6 0 ≠ 0xCE ∨ ret.getD 7 0 ≠ 0xCF ∨ ret.getD 2 0 ≠ command then
      some (PyVal.bool false, ch2)
    else if command = 0x13 ∨ command = 0x19 then
      if ret.getD 3 0 ≤ 23 ∧ ret.getD 4 0 ≤ 59 ∧ ret.getD 5 0 ≤ 59 then
        some (PyVal.timeVal (ret.getD 3 0) (ret.getD 4 0) (ret.getD 5 0), ch2)
      else none
    else
      some (PyVal.num
        (((ret.getD 3 0) * 65536 + (ret.getD 4 0) * 256 + ret.getD 5 0 : ℕ)
          / mulOf command), ch2)

/-- `DL24M.update_val` (lines 146-149): read the register and store the value
unless it `is False` (Python identity test against the `False` object). -/
def updateValS (key : Key) (st : DState) (ch : Chan) : Option (DState × Chan) :=
  match getValS (KEY_CMDS key) ch with
  | none => none
  | some (v, ch2) =>
    match v with
    | PyVal.bool false => some (st, ch2)
    | _ => some (dataSet key v st, ch2)

/-- `DL24M.update_vals` (lines 142-144). -/
def updateValsS (keys : List Key) (st : DState) (ch : Chan) : Option (DState × Chan) :=
  match keys with
  | [] => some (st, ch)
  | k :: ks =>
    match updateValS k st ch with
    | none => none
    | some (st2, ch2) => updateValsS ks st2 ch2

/-- `DL24M.__next_aux` (lines 302-306): increment `aux_index`, wrap at
`len(AUX_VALS)`, return the new value. -/
def nextAux (ai : Nat) : Nat :=
  if ai + 1 ≥ AUX_VALS.length then 0 else ai + 1

/-- Register codes selected by `n` consecutive shallow `readAll` cycles
starting from cursor `ai` (each cycle queries `AUX_VALS[__next_aux()]`). -/
def auxSelSeq : Nat → Nat → List Nat
  | 0, _ => []
  | n + 1, ai =>
    KEY_CMDS (AUX_VALS.getD (nextAux ai) Key.cap_wh) :: auxSelSeq n (nextAux ai)

/-- `DL24M.__clear_device` (lines 291-300): best-effort read of everything in
the input buffer (exceptions are swallowed). -/
def clearDevice (ch : Chan) : Chan :=
  { s := ch.s.drop ch.pending, pending := 0, log := ch.log }

/-- `DL24M.readAll` (lines 130-140). -/
def readAllS (read_all_aux : Bool) (d : Driver) (ch : Chan) : Option (Driver × Chan) :=
  match updateValsS FREQ_VALS d.data (clearDevice ch) with
  | none => none
  | some (st1, ch1) =>
    match read_all_aux with
    | true =>
      match updateValsS AUX_VALS st1 ch1 with
      | none => none
      | some (st2, ch2) => some ({ data := st2, auxIndex := d.auxIndex }, ch2)
    | false =>
      match updateValS (AUX_VALS.getD (nextAux d.auxIndex) Key.cap_wh) st1 ch1 with
      | none => none
      | some (st2, ch2) => some ({ data := st2, auxIndex := nextAux d.auxIndex }, ch2)

/-- Modelled from the spec: the `Instrument` base class
(`instruments/instrument.py`) is not among the sources; its five command
identifiers `COMMAND_ENABLE`, `COMMAND_SET_VOLTAGE`, `COMMAND_SET_CURRENT`,
`COMMAND_SET_TIMER`, `COMMAND_RESET` (spec section 4.4: enable, set-voltage,
set-current, set-timer, reset) are modelled as distinct constructors, with
`other` covering every unrecognized identifier. -/
inductive CmdId where
  | enable | setVoltage | setCurrent | setTimer | reset
  | other (s : String)
  deriving DecidableEq

/-- `DL24M.COMMANDS` (lines 85-91): recognized command identifier to
command code. -/
def COMMANDS : CmdId → Option Nat
  | CmdId.enable => some 0x01
  | CmdId.setVoltage => some 0x03
  | CmdId.setCurrent => some 0x02
  | CmdId.setTimer => some 0x04
  | CmdId.reset => some 0x05
  | CmdId.other _ => none

/-- `DL24M.VERIFY_CMD` (lines 93-99): recognized command identifier to the
key of the register that is re-read to verify the command. -/
def VERIFY_CMD : CmdId → Option Key
  | CmdId.enable => some Key.is_on
  | CmdId.setVoltage => some Key.set_voltage
  | CmdId.setCurrent => some Key.set_current
  | CmdId.setTimer => some Key.set_timer
  | CmdId.reset => some Key.cap_ah
  | CmdId.other _ => none

/-- Python `modf` truncates toward zero; the integer part as an `Int`. -/
def pyTrunc (q : ℚ) : ℤ := if 0 ≤ q then ⌊q⌋ else ⌈q⌉

/-- The payload encoding of `DL24M.setVal` (lines 197-207).  `none` is an
encoding exception escaping to the caller (`bytearray`/`to_bytes` range
errors): floats split by `modf` into `[int(i), round(f * 100)]`, times into
big-endian total seconds on 2 bytes, `True` for the output-on command into
`[0x01, 0x00]`, other ints into big-endian 2 bytes. -/
def encodePayload (command : Nat) (value : PyVal) : Option (List Nat) :=
  match value with
  | PyVal.num q =>
    let i : ℤ := pyTrunc q
    let b1 : ℤ := round ((q - (i : ℚ)) * 100)
    if 0 ≤ i ∧ i < 256 ∧ 0 ≤ b1 ∧ b1 < 256 then
      some [i.toNat, b1.toNat]
    else none
  | PyVal.timeVal hh mm ss =>
    let total := ss + mm * 60 + hh * 3600
    if total < 65536 then some [total / 256, total % 256] else none
  | PyVal.bool b =>
    if command = 0x01 ∧ b = true then some [0x01, 0x00]
    else some [0, if b then 1 else 0]

/-- `DL24M.setVal`: encode the payload, then `writeFunction` (the return value
`ret == None` is dropped by every caller). -/
def setValS (command : Nat) (value : PyVal) (ch : Chan) : Option Chan :=
  match encodePayload command value with
  | none => none
  | some payload => some (writeFunctionS command payload ch).2

/-- The outbound command codes produced by `n` executed attempts of the
`command` retry loop: issue the set code, then query the verify register. -/
def attemptsLog (icode vcode : Nat) (n : Nat) : List Nat :=
  (List.replicate n [icode, vcode]).flatten

/-- The `for i in range(0, 3)` retry loop of `DL24M.command` (lines 155-164)
with `n` attempts remaining: issue the set command, re-read the verification
register, and stop as soon as the stored value compares equal (Python `==`)
to the requested value. -/
def commandLoopS (vk : Key) (icode : Nat) (v : PyVal) :
    Nat → DState → Chan → Option (DState × Chan)
  | 0, st, ch => some (st, ch)
  | n + 1, st, ch =>
    match setValS icode v ch with
    | none => none
    | some ch1 =>
      match updateValS vk st ch1 with
      | none => none
      | some (st2, ch2) =>
        if pyEq (dataGet vk st2) v then some (st2, ch2)
        else commandLoopS vk icode v n st2 ch2

/-- `DL24M.command` (lines 151-167).  The `Bool` in the result is `true` when
the function returned `False` (unrecognized command) and `false` when it fell
through to the implicit `None`. -/
def commandRunS (cmd : CmdId) (v : PyVal) (d : Driver) (ch : Chan) :
    Option (Bool × Driver × Chan) :=
  match COMMANDS cmd, VERIFY_CMD cmd with
  | some icode, some vk =>
    match commandLoopS vk icode v 3 d.data ch with
    | none => none
    | some (st2, ch2) =>
      if cmd = CmdId.reset then
        match updateValsS AUX_VALS st2 ch2 with
        | none => none
        | some (st3, ch3) => some (false, { data := st3, auxIndex := d.auxIndex }, ch3)
      else some (false, { data := st2, auxIndex := d.auxIndex }, ch2)
  | _, _ => some (true, d, ch)

/-- `DL24M.__setup_device` (lines 279-289).  The input is the outcome of
configuring the six serial parameters (`none` = all assignments succeed,
`some msg` = one of them raises).  The handler is written `except  e:` with
`e` unbound, so when an exception arrives Python evaluates the undefined name
`e` to decide whether the handler matches and raises `NameError`, which
propagates to the caller. -/
def setupDeviceS (cfg : Option String) : Except String Unit :=
  match cfg with
  | none => Except.ok ()
  | some _ => Except.error "NameError"

/-! ## Basic lemmas about the channel primitives -/

theorem readBytesS_some {n : Nat} {s bs s2 : List Nat}
    (h : readBytesS n s = some (bs, s2)) :
    bs = s.take n ∧ s2 = s.drop n ∧ bs.length = n ∧ n ≤ s.length := by
  unfold readBytesS at h
  split at h
  · next hle =>
    injection h with h
    injection h with h1 h2
    subst h1; subst h2
    exact ⟨rfl, rfl, by simp [List.length_take, Nat.min_eq_left hle], hle⟩
  · exact absurd h (by simp)

theorem pyIndex_lt {v : Nat} : ∀ {l : List Nat} {i : Nat},
    pyIndex v l = some i → i < l.length := by
  intro l
  induction l with
  | nil => intro i h; simp [pyIndex] at h
  | cons b bs ih =>
    intro i h
    rw [pyIndex] at h
    split at h
    · injection h with h
      subst h
      simp
    · split at h
      · exact absurd h (by simp)
      · next j hm =>
        injection h with h
        subst h
        have := ih hm
        simp only [List.length_cons]
        omega

theorem scanLoop_found_shape : ∀ (n : Nat) (b s b2 s2 : List Nat),
    scanLoop n b s = ScanRes.found b2 s2 →
    b2.length = 2 ∧ b2.getD 0 0 = 0xCA ∧ b2.getD 1 0 = 0xCB := by
  intro n
  induction n with
  | zero => intro b s b2 s2 h; simp [scanLoop] at h
  | succ n ih =>
    intro b s b2 s2 h
    rw [scanLoop] at h
    split at h
    · next hc =>
      injection h with h1 h2
      subst h1
      exact hc
    · split at h
      · exact absurd h (by simp)
      · split at h
        · exact absurd h (by simp)
        · exact ih _ _ _ _ h

theorem finishScan_frame_length {b s : List Nat} {ch : Chan} {ret : List Nat}
    {ch2 : Chan} (h : finishScan b s ch = (WFRes.frame ret, ch2)) :
    ret.length = 8 := by
  unfold finishScan at h
  split at h
  · next b2 s2 hscan =>
    split at h
    · exact absurd h (by simp)
    · next six s3 hrb =>
      injection h with h1 h2
      injection h1 with h1
      subst h1
      have hshape := scanLoop_found_shape _ _ _ _ _ hscan
      have hlen := (readBytesS_some hrb).2.2.1
      simp [List.length_append, hshape.1, hlen]
  · exact absurd h (by simp)

theorem finishScan_chan {b s : List Nat} {ch : Chan} :
    (finishScan b s ch).2.log = ch.log ∧ (finishScan b s ch).2.pending = ch.pending := by
  unfold finishScan
  split
  · split
    · exact ⟨rfl, rfl⟩
    · exact ⟨rfl, rfl⟩
  · exact ⟨rfl, rfl⟩

/-- Every `frame` result of `writeFunction` for a query command is exactly
8 bytes long. -/
theorem wf_frame_length {c : Nat} {val : List Nat} {ch : Chan} {ret : List Nat}
    {ch2 : Chan} (h : writeFunctionS c val ch = (WFRes.frame ret, ch2)) :
    ret.length = 8 := by
  unfold writeFunctionS at h
  split at h
  · exact absurd h (by simp)
  · split at h
    · exact absurd h (by simp)
    · next b s1 hrb =>
      have hb := readBytesS_some hrb
      split at h
      · injection h with h1 h2
        injection h1 with h1
        subst h1
        exact hb.2.2.1
      · split at h
        · next idx hidx =>
          split at h
          · next hlt =>
            split at h
            · split at h
              · exact absurd h (by simp)
              · next more s2 hrb2 =>
                injection h with h1 h2
                injection h1 with h1
                subst h1
                have hmore := (readBytesS_some hrb2).2.2.1
                have hdl : (b.drop idx).length = 8 - idx := by
                  simp [List.length_drop, hb.2.2.1]
                simp only [List.length_append, hdl, hmore, hdl]
                omega
            · exact finishScan_frame_length h
          · exact finishScan_frame_length h
        · exact finishScan_frame_length h

/-- `writeFunction` appends exactly its command byte to the outbound log and
never touches the pending count. -/
theorem wf_chan {c : Nat} {val : List Nat} {ch : Chan} :
    (writeFunctionS c val ch).2.log = ch.log ++ [c] ∧
    (writeFunctionS c val ch).2.pending = ch.pending := by
  unfold writeFunctionS
  split
  · exact ⟨rfl, rfl⟩
  · split
    · exact ⟨rfl, rfl⟩
    · split
      · exact ⟨rfl, rfl⟩
      · split
        · split
          · split
            · split
              · exact ⟨rfl, rfl⟩
              · exact ⟨rfl, rfl⟩
            · exact ⟨finishScan_chan.1, finishScan_chan.2⟩
          · exact ⟨finishScan_chan.1, finishScan_chan.2⟩
        · exact ⟨finishScan_chan.1, finishScan_chan.2⟩

/-- Once the scan candidate has grown to length ≥ 3 with a `0xCA` first byte,
the loop can never again satisfy its exit condition (which requires length
exactly 2): every further iteration only appends another byte. -/
theorem scanLoop_stuck : ∀ (n : Nat) (b s : List Nat), 3 ≤ b.length →
    b.getD 0 0 = 0xCA → scanFound (scanLoop n b s) = false := by
  intro n
  induction n with
  | zero => intro b s _ _; rfl
  | succ n ih =>
    intro b s h3 hca
    rcases b with _ | ⟨a, b2⟩
    · simp at h3
    · have ha : a = 0xCA := by simpa using hca
      subst ha
      rw [scanLoop]
      have hlen : (0xCA :: b2).length ≠ 2 := by
        simp only [List.length_cons]
        simp only [List.length_cons] at h3
        omega
      rw [if_neg (by intro hc; exact hlen hc.1)]
      rw [if_neg hlen]
      have hinner : innerScan (0xCA :: b2) s = some (0xCA :: b2, s) := by
        rw [innerScan.eq_def]
        simp
      rw [hinner]
      cases s with
      | nil => rfl
      | cons c s3 =>
        apply ih
        · simp only [List.cons_append, List.length_cons, List.length_append]
          simp only [List.length_cons] at h3
          omega
        · simp

/-- Whatever `getVal` returns, the channel it leaves behind is exactly the one
`writeFunction` produced. -/
theorem getValS_chan_eq {c : Nat} {ch : Chan} {v : PyVal} {ch2 : Chan}
    (h : getValS c ch = some (v, ch2)) : ch2 = (writeFunctionS c [0, 0] ch).2 := by
  unfold getValS at h
  split at h
  · next chx heq =>
    rw [heq]
    injection h with h
    injection h with h1 h2
    exact h2.symm
  · next chx heq =>
    rw [heq]
    injection h with h
    injection h with h1 h2
    exact h2.symm
  · next ret chx heq =>
    rw [heq]
    split at h
    · injection h with h
      injection h with h1 h2
      exact h2.symm
    · split at h
      · injection h with h
        injection h with h1 h2
        exact h2.symm
      · split at h
        · injection h with h
          injection h with h1 h2
          exact h2.symm
        · split at h
          · split at h
            · injection h with h
              injection h with h1 h2
              exact h2.symm
            · exact absurd h (by simp)
          · injection h with h
            injection h with h1 h2
            exact h2.symm

theorem getValS_chan {c : Nat} {ch : Chan} {v : PyVal} {ch2 : Chan}
    (h : getValS c ch = some (v, ch2)) :
    ch2.log = ch.log ++ [c] ∧ ch2.pending = ch.pending := by
  rw [getValS_chan_eq h]
  exact ⟨wf_chan.1, wf_chan.2⟩

theorem updateValS_chan {k : Key} {st : DState} {ch : Chan} {st2 : DState}
    {ch2 : Chan} (h : updateValS k st ch = some (st2, ch2)) :
    ch2.log = ch.log ++ [KEY_CMDS k] ∧ ch2.pending = ch.pending := by
  unfold updateValS at h
  split at h
  · exact absurd h (by simp)
  · next v chx heq =>
    have hg := getValS_chan heq
    split at h <;>
    · injection h with h
      injection h with h1 h2
      subst h2
      exact hg

theorem updateValsS_chan : ∀ (keys : List Key) {st : DState} {ch : Chan}
    {st2 : DState} {ch2 : Chan}, updateValsS keys st ch = some (st2, ch2) →
    ch2.log = ch.log ++ keys.map KEY_CMDS ∧ ch2.pending = ch.pending := by
  intro keys
  induction keys with
  | nil =>
    intro st ch st2 ch2 h
    unfold updateValsS at h
    injection h with h
    injection h with h1 h2
    subst h2
    simp
  | cons k ks ih =>
    intro st ch st2 ch2 h
    unfold updateValsS at h
    split at h
    · exact absurd h (by simp)
    · next stx chx heq =>
      have h1 := updateValS_chan heq
      have h2 := ih h
      refine ⟨?_, ?_⟩
      · rw [h2.1, h1.1]
        simp
      · rw [h2.2, h1.2]

theorem setValS_chan {c : Nat} {v : PyVal} {ch ch1 : Chan}
    (h : setValS c v ch = some ch1) :
    ch1.log = ch.log ++ [c] ∧ ch1.pending = ch.pending := by
  unfold setValS at h
  split at h
  · exact absurd h (by simp)
  · injection h with h
    subst h
    exact ⟨wf_chan.1, wf_chan.2⟩

theorem attemptsLog_succ (i v m : Nat) :
    attemptsLog i v (m + 1) = i :: v :: attemptsLog i v m := by
  simp [attemptsLog, List.replicate_succ]

/-- Every normal return of the retry loop with `n` attempts allowed has
executed `m` full issue-and-verify rounds for some `1 ≤ m ≤ n` (when
`n ≠ 0`), and logged exactly those outbound frames. -/
theorem commandLoopS_log : ∀ (n : Nat) {vk : Key} {icode : Nat} {v : PyVal}
    {st : DState} {ch : Chan} {st2 : DState} {ch2 : Chan},
    commandLoopS vk icode v n st ch = some (st2, ch2) →
    ∃ m, m ≤ n ∧ (n ≠ 0 → 1 ≤ m) ∧
      ch2.log = ch.log ++ attemptsLog icode (KEY_CMDS vk) m ∧
      ch2.pending = ch.pending := by
  intro n
  induction n with
  | zero =>
    intro vk icode v st ch st2 ch2 h
    unfold commandLoopS at h
    injection h with h
    injection h with h1 h2
    subst h2
    exact ⟨0, Nat.le_refl 0, fun hn => absurd rfl hn, by simp [attemptsLog], rfl⟩
  | succ n ih =>
    intro vk icode v st ch st2 ch2 h
    rw [commandLoopS] at h
    split at h
    · exact absurd h (by simp)
    · next ch1 heq1 =>
      split at h
      · exact absurd h (by simp)
      · next stx chx heq2 =>
        have hs := setValS_chan heq1
        have hu := updateValS_chan heq2
        split at h
        · injection h with h
          injection h with h1 h2
          subst h2
          refine ⟨1, by omega, fun _ => Nat.le_refl 1, ?_, by rw [hu.2, hs.2]⟩
          rw [hu.1, hs.1, attemptsLog_succ]
          simp [attemptsLog]
        · rcases ih h with ⟨m, hm1, hm2, hm3, hm4⟩
          refine ⟨m + 1, by omega, fun _ => by omega, ?_, by rw [hm4, hu.2, hs.2]⟩
          rw [hm3, hu.1, hs.1, attemptsLog_succ]
          simp

/-! ## Claim theorems -/

/-- C2 (code bug): the header-seeking loop does NOT terminate with a header
whenever the candidate `0xCA` is immediately followed by another `0xCA`: the
pair `(0xCA, 0xCA)` shifts to `[0xCA, 0x00]`, the inner scan accepts it
unchanged, and appending the next byte grows the candidate to length 3 with
first byte `0xCA`; from then on the exit condition (length exactly 2) is
unreachable, so however many iterations are allowed and whatever bytes follow
`0xCA 0xCA 0xCB`, the scan never returns a found header — contradicting the
claim that such streams are resynchronized in finitely many reads. -/
theorem c2_scan_never_finds_header_after_double_ca (fuel : Nat) (rest : List Nat) :
    scanFound (scanLoop fuel [0x00] (0xCA :: 0xCA :: 0xCB :: rest)) = false := by
  match fuel with
  | 0 => rfl
  | 1 => rfl
  | n + 2 => exact scanLoop_stuck n [0xCA, 0x00, 0xCB] rest (by simp) (by simp)

/-- C10: an unrecognized command identifier makes `command` return `False`
immediately: nothing is written (the log is unchanged), nothing is read (the
stream is unchanged), and the data dictionary and round-robin cursor are
untouched. -/
theorem c10_unrecognized_command_is_noop (s : String) (v : PyVal) (d : Driver)
    (ch : Chan) : commandRunS (CmdId.other s) v d ch = some (true, d, ch) := rfl

/-- C9 (code bug): if configuring the serial parameters raises, the
`except  e:` handler evaluates the unbound name `e` and the resulting
`NameError` propagates out of `__setup_device` instead of being logged and
swallowed. -/
theorem c9_setup_device_propagates_nameerror (msg : String) :
    setupDeviceS (some msg) = Except.error "NameError" := rfl

/-- A transport failure inside `writeFunction` makes `getVal` return `False`. -/
theorem getValS_fail {c : Nat} {ch ch1 : Chan}
    (hwf : writeFunctionS c [0, 0] ch = (WFRes.failure, ch1)) :
    getValS c ch = some (PyVal.bool false, ch1) := by
  unfold getValS
  rw [hwf]

/-- A set command (no response read) makes `getVal` return `False`. -/
theorem getValS_noresp {c : Nat} {ch ch1 : Chan}
    (hwf : writeFunctionS c [0, 0] ch = (WFRes.noResp, ch1)) :
    getValS c ch = some (PyVal.bool false, ch1) := by
  unfold getValS
  rw [hwf]

/-- A frame that violates any of the structural checks (length, header,
footer, command echo) makes `getVal` return `False`. -/
theorem getValS_reject {c : Nat} {ch ch1 : Chan} {ret : List Nat}
    (hwf : writeFunctionS c [0, 0] ch = (WFRes.frame ret, ch1))
    (hbad : ret.length < 8 ∨ ret.getD 0 0 ≠ 0xCA ∨ ret.getD 1 0 ≠ 0xCB ∨
      ret.getD 6 0 ≠ 0xCE ∨ ret.getD 7 0 ≠ 0xCF ∨ ret.getD 2 0 ≠ c) :
    getValS c ch = some (PyVal.bool false, ch1) := by
  unfold getValS
  rw [hwf]
  split
  · next ch2 heq => exact absurd heq (by simp)
  · next ch2 heq => exact absurd heq (by simp)
  · next ret2 ch2 heq =>
    injection heq with h1 h2
    injection h1 with h1
    subst h1
    subst h2
    split
    · rfl
    · split
      · rfl
      · rfl

/-- C5: when the raw exchange for a register read fails — transport exception
(`failure`), nothing read back (`noResp`, which also covers the lone `0x6F`
acknowledgment path since `not ret` is true for it, and the `0x6F` frame case
is subsumed by the structural check), or a frame violating the structural
checks — `update_val` returns normally (no exception) and leaves the data
dictionary exactly as it was, every register included. -/
theorem c5_failed_read_keeps_state (key : Key) (st : DState) (ch : Chan) :
    (∀ ch1, writeFunctionS (KEY_CMDS key) [0, 0] ch = (WFRes.failure, ch1) →
      updateValS key st ch = some (st, ch1))
    ∧ (∀ ch1, writeFunctionS (KEY_CMDS key) [0, 0] ch = (WFRes.noResp, ch1) →
      updateValS key st ch = some (st, ch1))
    ∧ (∀ ret ch1, writeFunctionS (KEY_CMDS key) [0, 0] ch = (WFRes.frame ret, ch1) →
      (ret.length < 8 ∨ ret.getD 0 0 ≠ 0xCA ∨ ret.getD 1 0 ≠ 0xCB ∨
       ret.getD 6 0 ≠ 0xCE ∨ ret.getD 7 0 ≠ 0xCF ∨ ret.getD 2 0 ≠ KEY_CMDS key) →
      updateValS key st ch = some (st, ch1)) := by
  refine ⟨fun ch1 h => ?_, fun ch1 h => ?_, fun ret ch1 h hbad => ?_⟩
  · unfold updateValS
    rw [getValS_fail h]
  · unfold updateValS
    rw [getValS_noresp h]
  · unfold updateValS
    rw [getValS_reject h hbad]

/-- C5 witness: reading the voltage register over a channel holding only a
garbage byte fails (the 8-byte read times out) and leaves the whole data
dictionary untouched. -/
theorem c5_witness :
    updateValS Key.voltage initData ⟨[0x42], 0, []⟩
      = some (initData, ⟨[0x42], 0, [0x11]⟩) :=
  (c5_failed_read_keeps_state Key.voltage initData ⟨[0x42], 0, []⟩).1
    ⟨[0x42], 0, [0x11]⟩ (by decide)

/-- C3: `getVal` accepts a response (returns a decoded value rather than the
failure value `False`) only if `writeFunction` delivered a frame of length 8
(so length ≥ 8) whose first two bytes are `0xCA 0xCB`, whose last two bytes
are `0xCE 0xCF`, and whose third byte echoes the queried command; every
violation — transport failure, nothing read back, or a frame failing the
structural checks — yields the value `False`, not an exception. -/
theorem c3_decode_gate (command : Nat) (ch : Chan) :
    (∀ v ch2, getValS command ch = some (v, ch2) → v ≠ PyVal.bool false →
      ∃ ret ch1, writeFunctionS command [0, 0] ch = (WFRes.frame ret, ch1) ∧
        ret.length = 8 ∧ 8 ≤ ret.length ∧ ret.getD 0 0 = 0xCA ∧ ret.getD 1 0 = 0xCB ∧
        ret.getD (ret.length - 2) 0 = 0xCE ∧ ret.getD (ret.length - 1) 0 = 0xCF ∧
        ret.getD 2 0 = command)
    ∧ (∀ ch1, writeFunctionS command [0, 0] ch = (WFRes.failure, ch1) →
        getValS command ch = some (PyVal.bool false, ch1))
    ∧ (∀ ch1, writeFunctionS command [0, 0] ch = (WFRes.noResp, ch1) →
        getValS command ch = some (PyVal.bool false, ch1))
    ∧ (∀ ret ch1, writeFunctionS command [0, 0] ch = (WFRes.frame ret, ch1) →
        (ret.length < 8 ∨ ret.getD 0 0 ≠ 0xCA ∨ ret.getD 1 0 ≠ 0xCB ∨
         ret.getD 6 0 ≠ 0xCE ∨ ret.getD 7 0 ≠ 0xCF ∨ ret.getD 2 0 ≠ command) →
        getValS command ch = some (PyVal.bool false, ch1)) := by
  refine ⟨?_, fun ch1 h => getValS_fail h, fun ch1 h => getValS_noresp h,
    fun ret ch1 h hbad => getValS_reject h hbad⟩
  intro v ch2 h hv
  rcases hwf : writeFunctionS command [0, 0] ch with ⟨res, chx⟩
  cases res with
  | failure =>
    rw [getValS_fail hwf] at h
    injection h with h
    injection h with h1 h2
    exact absurd h1.symm hv
  | noResp =>
    rw [getValS_noresp hwf] at h
    injection h with h
    injection h with h1 h2
    exact absurd h1.symm hv
  | frame ret =>
    by_cases hbad : (ret.length < 8 ∨ ret.getD 0 0 ≠ 0xCA ∨ ret.getD 1 0 ≠ 0xCB ∨
      ret.getD 6 0 ≠ 0xCE ∨ ret.getD 7 0 ≠ 0xCF ∨ ret.getD 2 0 ≠ command)
    · rw [getValS_reject hwf hbad] at h
      injection h with h
      injection h with h1 h2
      exact absurd h1.symm hv
    · push_neg at hbad
      obtain ⟨hl, hca, hcb, hce, hcf, hcmd⟩ := hbad
      have hlen8 := wf_frame_length hwf
      refine ⟨ret, chx, rfl, hlen8, by omega, hca, hcb, ?_, ?_, hcmd⟩
      · rw [hlen8]
        exact hce
      · rw [hlen8]
        exact hcf

/-- C3 witness: with only 8 garbage zero bytes on the stream the exchange
fails and `getVal` returns `False`; with a well-formed voltage frame the
accepted raw bytes satisfy every structural condition, including the last two
bytes being `0xCE 0xCF`. -/
theorem c3_witness :
    getValS 0x11 ⟨[0, 0, 0, 0, 0, 0, 0, 0], 0, []⟩
        = some (PyVal.bool false, ⟨[], 0, [0x11]⟩)
    ∧ ∃ ret ch1,
        writeFunctionS 0x13 [0, 0] ⟨[0xCA, 0xCB, 0x13, 0x01, 0x02, 0x03, 0xCE, 0xCF], 0, []⟩
          = (WFRes.frame ret, ch1) ∧
        ret.length = 8 ∧ 8 ≤ ret.length ∧ ret.getD 0 0 = 0xCA ∧ ret.getD 1 0 = 0xCB ∧
        ret.getD (ret.length - 2) 0 = 0xCE ∧ ret.getD (ret.length - 1) 0 = 0xCF ∧
        ret.getD 2 0 = 0x13 :=
  ⟨(c3_decode_gate 0x11 ⟨[0, 0, 0, 0, 0, 0, 0, 0], 0, []⟩).2.1 ⟨[], 0, [0x11]⟩ (by decide),
   (c3_decode_gate 0x13 ⟨[0xCA, 0xCB, 0x13, 0x01, 0x02, 0x03, 0xCE, 0xCF], 0, []⟩).1
     (PyVal.timeVal 1 2 3) ⟨[], 0, [0x13]⟩ (by decide) (by decide)⟩

/-- C7: for every non-duration register and every structurally valid 8-byte
frame, the decoded value is the big-endian 24-bit payload integer divided by
the register scale, and the scale of any code missing from the `MUL` table
defaults to 1000. -/
theorem c7_scalar_decode (k : Key) (hk1 : k ≠ Key.time) (hk2 : k ≠ Key.set_timer)
    (b3 b4 b5 : Nat) (rest : List Nat) (pend : Nat) (log : List Nat) :
    getValS (KEY_CMDS k)
        ⟨0xCA :: 0xCB :: KEY_CMDS k :: b3 :: b4 :: b5 :: 0xCE :: 0xCF :: rest, pend, log⟩
      = some (PyVal.num (((b3 * 65536 + b4 * 256 + b5 : ℕ) : ℚ) / mulOf (KEY_CMDS k)),
          ⟨rest, pend, log ++ [KEY_CMDS k]⟩)
    ∧ (∀ c : Nat, c ∉ [0x10, 0x11, 0x12, 0x14, 0x15, 0x16, 0x17, 0x18] →
        mulOf c = 1000) := by
  constructor
  · cases k
    case time => exact absurd rfl hk1
    case set_timer => exact absurd rfl hk2
    all_goals
      simp only [KEY_CMDS]
      unfold getValS writeFunctionS
      norm_num [readBytesS, logCmd, List.take, List.drop]
  · intro c hc
    simp only [List.mem_cons, List.not_mem_nil, or_false, not_or] at hc
    obtain ⟨h1, h2, h3, h4, h5, h6, h7, h8⟩ := hc
    have e1 : (c == 16) = false := beq_eq_false_iff_ne.mpr h1
    have e2 : (c == 17) = false := beq_eq_false_iff_ne.mpr h2
    have e3 : (c == 18) = false := beq_eq_false_iff_ne.mpr h3
    have e4 : (c == 20) = false := beq_eq_false_iff_ne.mpr h4
    have e5 : (c == 21) = false := beq_eq_false_iff_ne.mpr h5
    have e6 : (c == 22) = false := beq_eq_false_iff_ne.mpr h6
    have e7 : (c == 23) = false := beq_eq_false_iff_ne.mpr h7
    have e8 : (c == 24) = false := beq_eq_false_iff_ne.mpr h8
    simp [mulOf, MUL, List.lookup, e1, e2, e3, e4, e5, e6, e7, e8]

/-- C7 witness: decoding `[0xCA, 0xCB, 0x11, 0x00, 0x03, 0xE8, 0xCE, 0xCF]`
for the voltage register yields `1.0` (raw 1000 divided by scale 1000). -/
theorem c7_witness :
    getValS 0x11 ⟨[0xCA, 0xCB, 0x11, 0x00, 0x03, 0xE8, 0xCE, 0xCF], 0, []⟩
      = some (PyVal.num 1, ⟨[], 0, [0x11]⟩) :=
  ((c7_scalar_decode Key.voltage (by decide) (by decide) 0x00 0x03 0xE8 [] 0 []).1).trans
    (by norm_num [KEY_CMDS, show mulOf 0x11 = 1000 from rfl])

/-- C1 (amended): when the misaligned initial 8-byte read contains a `0xCA`
whose very next byte is `0xCB` (the first `0xCA` of the read, at index `idx`),
`writeFunction` returns the 8-byte frame that starts at that `0xCA 0xCB`
boundary of the stream, reading exactly `idx` further bytes — no byte between
the scan position and the header is skipped or consumed twice.  (When the
first `0xCA` of the initial read is followed by anything other than `0xCB`,
the code instead abandons the rest of the buffered read and rescans fresh
bytes only — see the counterexample.) -/
theorem c1_resync_shifted_header (cmd idx : Nat) (b rest : List Nat)
    (pend : Nat) (log : List Nat) (h16 : 0x10 ≤ cmd) (hb : b.length = 8)
    (hna : ¬(b.getD 0 0 = 0xCA ∧ b.getD 1 0 = 0xCB))
    (hidx : pyIndex 0xCA b = some idx) (hlt : idx + 1 < 8)
    (hcb : b.getD (idx + 1) 0 = 0xCB) (hrest : idx ≤ rest.length) :
    writeFunctionS cmd [0, 0] ⟨b ++ rest, pend, log⟩
      = (WFRes.frame (((b ++ rest).drop idx).take 8),
         ⟨rest.drop idx, pend, log ++ [cmd]⟩) := by
  have hidx8 : idx < 8 := by omega
  have hdl : (b.drop idx).length = 8 - idx := by simp [List.length_drop, hb]
  have hsplit : ((b ++ rest).drop idx).take 8 = b.drop idx ++ rest.take idx := by
    rw [List.drop_append_eq_append_drop]
    rw [Nat.sub_eq_zero_of_le (by omega), List.drop_zero]
    rw [List.take_append_eq_append_take]
    rw [List.take_of_length_le (by omega), hdl]
    have h8 : 8 - (8 - idx) = idx := by omega
    rw [h8]
  unfold writeFunctionS
  rw [if_neg (by omega)]
  have hrb : readBytesS 8 ((⟨b ++ rest, pend, log⟩ : Chan).s) = some (b, rest) := by
    unfold readBytesS
    rw [if_pos (by simp [List.length_append, hb])]
    rw [List.take_left' hb, List.drop_left' hb]
  rw [hrb]
  dsimp only
  rw [if_neg hna]
  rw [hidx]
  dsimp only
  rw [if_pos hlt, if_pos hcb]
  have hrb2 : readBytesS (8 - (b.drop idx).length) rest
      = some (rest.take idx, rest.drop idx) := by
    rw [hdl]
    have h8 : 8 - (8 - idx) = idx := by omega
    rw [h8]
    unfold readBytesS
    rw [if_pos hrest]
  rw [hrb2]
  dsimp only
  rw [hsplit]
  rfl

/-- C1 counterexample: the stream is
`00 CA 00 CA CB 01 02 03 04 05 06` — the initial 8-byte read is misaligned,
its first `0xCA` (index 1) is followed by `0x00`, and the true `0xCA 0xCB`
header sits at stream offset 3, inside the very bytes already read.  The
claim requires the scan to return the 8-byte frame starting at offset 3
(`CA CB 01 02 03 04 05 06`); instead the code abandons the rest of the
buffered read, rescans only fresh bytes (`04 05 06`, which hold no `0xCA`),
and fails. -/
theorem c1_counterexample :
    writeFunctionS 0x11 [0, 0]
        ⟨[0x00, 0xCA, 0x00, 0xCA, 0xCB, 0x01, 0x02, 0x03, 0x04, 0x05, 0x06], 0, []⟩
      = (WFRes.failure, ⟨[0x04, 0x05, 0x06], 0, [0x11]⟩)
    ∧ ¬ (WFRes.failure
        = WFRes.frame ((([0x00, 0xCA, 0x00, 0xCA, 0xCB, 0x01, 0x02, 0x03,
            0x04, 0x05, 0x06] : List Nat).drop 3).take 8)) :=
  ⟨by decide, by decide⟩

/-- C1 witness: stream `00 00 00 CA CB 01 02 03 04 05 06`; the first `0xCA`
of the initial read (index 3) is followed by `0xCB`, and the scan returns the
8-byte frame starting at stream offset 3 after reading exactly 3 more bytes. -/
theorem c1_witness :
    writeFunctionS 0x11 [0, 0]
        ⟨[0x00, 0x00, 0x00, 0xCA, 0xCB, 0x01, 0x02, 0x03] ++ [0x04, 0x05, 0x06], 0, []⟩
      = (WFRes.frame ((([0x00, 0x00, 0x00, 0xCA, 0xCB, 0x01, 0x02, 0x03]
            ++ [0x04, 0x05, 0x06]).drop 3).take 8),
         ⟨([0x04, 0x05, 0x06] : List Nat).drop 3, 0, ([] : List Nat) ++ [0x11]⟩) :=
  c1_resync_shifted_header 0x11 3 [0x00, 0x00, 0x00, 0xCA, 0xCB, 0x01, 0x02, 0x03]
    [0x04, 0x05, 0x06] 0 [] (by decide) (by decide) (by decide) (by decide)
    (by decide) (by decide) (by decide)

/-- Every completed shallow `readAll` cycle advances the round-robin cursor by
`__next_aux` and queries exactly the five frequent registers followed by the
auxiliary register the new cursor selects. -/
theorem readAllS_shallow_chan {d : Driver} {ch : Chan} {d2 : Driver} {ch2 : Chan}
    (h : readAllS false d ch = some (d2, ch2)) :
    d2.auxIndex = nextAux d.auxIndex ∧
    ch2.log = ch.log ++ [0x10, 0x11, 0x12, 0x13, 0x14,
      KEY_CMDS (AUX_VALS.getD (nextAux d.auxIndex) Key.cap_wh)] := by
  unfold readAllS at h
  rcases heq1 : updateValsS FREQ_VALS d.data (clearDevice ch) with _ | ⟨st1, ch1⟩
  · rw [heq1] at h
    exact absurd h (by simp)
  · rw [heq1] at h
    dsimp only at h
    rcases heq2 : updateValS (AUX_VALS.getD (nextAux d.auxIndex) Key.cap_wh) st1 ch1
      with _ | ⟨st2, chx⟩
    · rw [heq2] at h
      exact absurd h (by simp)
    · rw [heq2] at h
      dsimp only at h
      injection h with h
      injection h with h1 h2
      subst h1
      subst h2
      have hf := updateValsS_chan FREQ_VALS heq1
      have ha := updateValS_chan heq2
      refine ⟨rfl, ?_⟩
      rw [ha.1, hf.1]
      simp [clearDevice, FREQ_VALS, KEY_CMDS]

/-- C6 (amended): (1) every completed shallow poll cycle queries the five
frequent registers and then exactly the auxiliary register selected by
advancing the cursor with `__next_aux`; (2) over any 5 consecutive shallow
cycles (from any reachable cursor value, i.e. any value below 5) each of the
5 auxiliary registers is selected exactly once, following the auxiliary list
order cyclically; (3) but because `__next_aux` increments before indexing, a
fresh driver (cursor 0) starts the rotation at temperature: the selection
sequence is temperature, current-limit, voltage-limit, timer, capacity-Wh —
not capacity-Wh first as the claim states. -/
theorem c6_round_robin (d : Driver) (ch : Chan) (d2 : Driver) (ch2 : Chan) :
    (readAllS false d ch = some (d2, ch2) →
      d2.auxIndex = nextAux d.auxIndex ∧
      ch2.log = ch.log ++ [0x10, 0x11, 0x12, 0x13, 0x14,
        KEY_CMDS (AUX_VALS.getD (nextAux d.auxIndex) Key.cap_wh)])
    ∧ (∀ ai, ai < 5 →
        (auxSelSeq 5 ai).count 0x15 = 1 ∧ (auxSelSeq 5 ai).count 0x16 = 1 ∧
        (auxSelSeq 5 ai).count 0x17 = 1 ∧ (auxSelSeq 5 ai).count 0x18 = 1 ∧
        (auxSelSeq 5 ai).count 0x19 = 1)
    ∧ auxSelSeq 5 0 = [0x16, 0x17, 0x18, 0x19, 0x15] :=
  ⟨fun h => readAllS_shallow_chan h, by decide, by decide⟩

/-- C6 counterexample: a fresh driver's first shallow cycle queries the
registers `0x10 0x11 0x12 0x13 0x14` and then temperature (`0x16`) — the
capacity-Wh register `0x15` is not among the queried registers, contradicting
the claim that the first shallow cycle refreshes capacity-Wh. -/
theorem c6_counterexample :
    readAllS false initDriver ⟨[], 0, []⟩
      = some ({ data := initData, auxIndex := 1 },
          ⟨[], 0, [0x10, 0x11, 0x12, 0x13, 0x14, 0x16]⟩)
    ∧ ¬ (0x15 ∈ [0x10, 0x11, 0x12, 0x13, 0x14, 0x16]) :=
  ⟨by decide, by decide⟩

/-- C6 witness: the per-cycle selection result applied to the fresh driver
over an empty channel. -/
theorem c6_witness :
    ({ data := initData, auxIndex := 1 } : Driver).auxIndex
        = nextAux initDriver.auxIndex
    ∧ (⟨[], 0, [0x10, 0x11, 0x12, 0x13, 0x14, 0x16]⟩ : Chan).log
        = (⟨[], 0, []⟩ : Chan).log ++ [0x10, 0x11, 0x12, 0x13, 0x14,
            KEY_CMDS (AUX_VALS.getD (nextAux initDriver.auxIndex) Key.cap_wh)] :=
  (c6_round_robin initDriver ⟨[], 0, []⟩ { data := initData, auxIndex := 1 }
      ⟨[], 0, [0x10, 0x11, 0x12, 0x13, 0x14, 0x16]⟩).1 (by decide)

theorem count_attemptsLog {i v : Nat} (hne : v ≠ i) : ∀ m : Nat,
    (attemptsLog i v m).count i = m := by
  intro m
  induction m with
  | zero => rfl
  | succ m ih =>
    rw [attemptsLog_succ]
    simp [List.count_cons, ih, hne]

theorem count_auxCodes_of_lt {i : Nat} (h : i < 0x10) :
    ((AUX_VALS.map KEY_CMDS).count i) = 0 := by
  rw [List.count_eq_zero]
  intro hmem
  simp [AUX_VALS, KEY_CMDS] at hmem
  omega

/-- C8 (amended): after the retry loop of `command`, the executor refreshes
every auxiliary register exactly when the command is the full reset — but it
does so unconditionally, whether or not any verification attempt matched; for
every other recognized command the log shows only the 1-3 issue-and-verify
rounds and no auxiliary sweep. -/
theorem c8_reset_refresh (v : PyVal) (d : Driver) (ch : Chan) :
    (∀ r d2 ch2, commandRunS CmdId.reset v d ch = some (r, d2, ch2) →
      ∃ l, ch2.log = l ++ AUX_VALS.map KEY_CMDS)
    ∧ (∀ cmd icode vk r d2 ch2, cmd ≠ CmdId.reset →
      COMMANDS cmd = some icode → VERIFY_CMD cmd = some vk →
      commandRunS cmd v d ch = some (r, d2, ch2) →
      ∃ m, 1 ≤ m ∧ m ≤ 3 ∧
        ch2.log = ch.log ++ attemptsLog icode (KEY_CMDS vk) m) := by
  constructor
  · intro r d2 ch2 h
    unfold commandRunS at h
    dsimp only [COMMANDS, VERIFY_CMD] at h
    split at h
    · exact absurd h (by simp)
    · next st2 chx heq1 =>
      rw [if_pos rfl] at h
      split at h
      · exact absurd h (by simp)
      · next st3 ch3 heq2 =>
        injection h with h
        injection h with hr h
        injection h with hd hc
        subst hc
        exact ⟨chx.log, (updateValsS_chan AUX_VALS heq2).1⟩
  · intro cmd icode vk r d2 ch2 hne hC hV h
    unfold commandRunS at h
    cases cmd
    case other s => exact absurd hC (by simp [COMMANDS])
    case reset => exact absurd rfl hne
    all_goals
      simp only [COMMANDS] at hC
      simp only [VERIFY_CMD] at hV
      injection hC with hC
      injection hV with hV
      subst hC
      subst hV
      dsimp only [COMMANDS, VERIFY_CMD] at h
      split at h
      · exact absurd h (by simp)
      · next st2 chx heq1 =>
        rw [if_neg hne] at h
        injection h with h
        injection h with hr h
        injection h with hd hc
        subst hc
        rcases commandLoopS_log 3 heq1 with ⟨m, hm1, hm2, hm3, hm4⟩
        exact ⟨m, hm2 (by omega), hm1, hm3⟩

/-- C8 counterexample: a reset whose requested value (`True`) never matches
the verification register — all three attempts fail (the channel is empty, so
every read fails and `cap_ah` keeps its initial value `0.0 ≠ True`) — yet the
log ends with the full auxiliary sweep `0x15 0x16 0x17 0x18 0x19`: the
refresh is NOT conditional on verification success. -/
theorem c8_counterexample :
    commandRunS CmdId.reset (PyVal.bool true) initDriver ⟨[], 0, []⟩
      = some (false, initDriver,
          ⟨[], 0, [0x05, 0x14, 0x05, 0x14, 0x05, 0x14,
            0x15, 0x16, 0x17, 0x18, 0x19]⟩)
    ∧ pyEq (dataGet Key.cap_ah initData) (PyVal.bool true) = false :=
  ⟨by decide, by decide⟩

/-- C8 witness: the reset run above ends with the auxiliary sweep, and an
enable run over the same empty channel (value `True`, never verified) logs
exactly three issue-and-verify rounds and no auxiliary sweep. -/
theorem c8_witness :
    (∃ l, (⟨[], 0, [0x05, 0x14, 0x05, 0x14, 0x05, 0x14,
        0x15, 0x16, 0x17, 0x18, 0x19]⟩ : Chan).log = l ++ AUX_VALS.map KEY_CMDS)
    ∧ ∃ m, 1 ≤ m ∧ m ≤ 3 ∧
        (⟨[], 0, [0x01, 0x10, 0x01, 0x10, 0x01, 0x10]⟩ : Chan).log
          = (⟨[], 0, []⟩ : Chan).log ++ attemptsLog 0x01 (KEY_CMDS Key.is_on) m :=
  ⟨(c8_reset_refresh (PyVal.bool true) initDriver ⟨[], 0, []⟩).1 false initDriver
      ⟨[], 0, [0x05, 0x14, 0x05, 0x14, 0x05, 0x14, 0x15, 0x16, 0x17, 0x18, 0x19]⟩
      (by decide),
   (c8_reset_refresh (PyVal.bool true) initDriver ⟨[], 0, []⟩).2 CmdId.enable 0x01
      Key.is_on false { data := initData, auxIndex := 0 }
      ⟨[], 0, [0x01, 0x10, 0x01, 0x10, 0x01, 0x10]⟩
      (by decide) (by decide) (by decide) (by decide)⟩

/-- C4: (1) for every recognized command a completed run of the executor
issues the set command at most 3 times (counted on the outbound log; the set
codes `0x01-0x05` never collide with the register codes `0x10-0x19` of the
verify reads and the auxiliary sweep); (2) at any point of the retry loop,
if re-reading the verification register leaves the stored value exactly equal
(Python `==`) to the requested value, the loop stops right there, performing
no further attempt. -/
theorem c4_retry_limit_and_stop :
    (∀ cmd icode vk v (d : Driver) (ch : Chan) r d2 ch2,
      COMMANDS cmd = some icode → VERIFY_CMD cmd = some vk →
      commandRunS cmd v d ch = some (r, d2, ch2) →
      ch2.log.count icode ≤ ch.log.count icode + 3)
    ∧ (∀ vk icode v n (st : DState) (ch ch1 : Chan) st2 ch2,
      setValS icode v ch = some ch1 → updateValS vk st ch1 = some (st2, ch2) →
      pyEq (dataGet vk st2) v = true →
      commandLoopS vk icode v (n + 1) st ch = some (st2, ch2)) := by
  constructor
  · intro cmd icode vk v d ch r d2 ch2 hC hV h
    unfold commandRunS at h
    cases cmd
    case other s => exact absurd hC (by simp [COMMANDS])
    case reset =>
      simp only [COMMANDS] at hC
      simp only [VERIFY_CMD] at hV
      injection hC with hC
      injection hV with hV
      subst hC
      subst hV
      dsimp only [COMMANDS, VERIFY_CMD] at h
      split at h
      · exact absurd h (by simp)
      · next st2 chx heq1 =>
        rw [if_pos rfl] at h
        split at h
        · exact absurd h (by simp)
        · next st3 ch3 heq2 =>
          injection h with h
          injection h with hr h
          injection h with hd hc
          subst hc
          rcases commandLoopS_log 3 heq1 with ⟨m, hm1, hm2, hm3, hm4⟩
          rw [(updateValsS_chan AUX_VALS heq2).1, hm3]
          rw [List.count_append, List.count_append]
          rw [count_attemptsLog (by decide) m]
          rw [count_auxCodes_of_lt (by decide)]
          omega
    all_goals
      simp only [COMMANDS] at hC
      simp only [VERIFY_CMD] at hV
      injection hC with hC
      injection hV with hV
      subst hC
      subst hV
      dsimp only [COMMANDS, VERIFY_CMD] at h
      split at h
      · exact absurd h (by simp)
      · next st2 chx heq1 =>
        rw [if_neg (by decide)] at h
        injection h with h
        injection h with hr h
        injection h with hd hc
        subst hc
        rcases commandLoopS_log 3 heq1 with ⟨m, hm1, hm2, hm3, hm4⟩
        rw [hm3, List.count_append]
        rw [count_attemptsLog (by decide) m]
        omega
  · intro vk icode v n st ch ch1 st2 ch2 hset hupd hmatch
    rw [commandLoopS]
    rw [hset]
    dsimp only
    rw [hupd]
    dsimp only
    rw [if_pos hmatch]

/-- C4 witness: issuing the enable command with requested value `False` over
an empty channel verifies on the first attempt (the stored `is_on` value
`0.0` compares equal to `False` under Python `==`), so exactly one set frame
is issued — within the 3-attempt bound — and the loop stops immediately. -/
theorem c4_witness :
    ((⟨[], 0, [0x01, 0x10]⟩ : Chan).log.count 0x01
        ≤ (⟨[], 0, []⟩ : Chan).log.count 0x01 + 3)
    ∧ commandLoopS Key.is_on 0x01 (PyVal.bool false) 3 initData ⟨[], 0, []⟩
        = some (initData, ⟨[], 0, [0x01, 0x10]⟩) :=
  ⟨c4_retry_limit_and_stop.1 CmdId.enable 0x01 Key.is_on (PyVal.bool false)
      initDriver ⟨[], 0, []⟩ false { data := initData, auxIndex := 0 }
      ⟨[], 0, [0x01, 0x10]⟩ (by decide) (by decide) (by decide),
   c4_retry_limit_and_stop.2 Key.is_on 0x01 (PyVal.bool false) 2 initData
      ⟨[], 0, []⟩ ⟨[], 0, [0x01]⟩ initData ⟨[], 0, [0x01, 0x10]⟩
      (by decide) (by decide) (by decide)⟩
